import Mathlib

/-!
Shallow embedding of the WireGuard/AmneziaWG Telegram-bot VPN manager
(`bot/utils.py`, `bot/vpn_manager.py`, `bot/handlers.py`, `config/settings.py`).

Modelling conventions:

* A configuration file is a `List CLine`.  The Python code works on raw text
  with line-oriented regexes; the `CLine` constructors encode exactly the
  discriminations those regexes and string tests make on a line:
  - `interfaceHeader` / `peerHeader` are lines whose stripped text is
    `[Interface]` / `[Peer]`;
  - `publicKey k` is a line matching `PublicKey\s*=\s*([A-Za-z0-9+/=]{44})`
    with captured key `k` (the canonical form the bot itself writes);
  - `publicKeyBad s` is a line that starts with `PublicKey` but does not
    match that pattern;
  - `presharedKey k` matches `PresharedKey\s*=\s*(...{44})`;
  - `privateKeyLine k` matches `PrivateKey\s*=\s*([^\s]+)`;
  - `allowedIPs h` is a line `AllowedIPs = <base>.<h>/32` for the VPN base
    prefix (the form matched by `get_next_client_ip`);
  - `allowedIPsRaw s` is any other `AllowedIPs = s` line;
  - `endpointLine a p` matches `Endpoint\s*=\s*addr:port`;
  - `jcLine v` is an obfuscation line `Jc = v` (the substring the code
    tests with `'Jc =' in content`);
  - `addressLine h` is `Address = <base>.<h>/32`;
  - `blank` is an empty line and `other s` is any remaining line, assumed
    not to render as one of the special forms above (well-formedness of the
    files the system reads and writes).

* External processes (`wg`, `docker`, `curl`) are parameters collected in
  `Ext` / `WgEnv`; the live peer table parsed from `wg show` is a list of
  public-key strings, and the outcome of a single `wg set` invocation is a
  `SetPeerResult` oracle.

* Every operation returns, besides its value, a trace of `BotEffect`s
  recording config-file reads/writes/deletes, external queries, mutating
  `wg` commands and chat replies, so frame conditions ("issues zero
  mutating commands", "writes no file") are statable.

* The filesystem is an `FS` record: the optional server config `wg0.conf`
  and a name-keyed list of client config files.
-/

namespace TgAwg

/-- Allowed-IPs value carried by a `wg set` command: either a host inside the
VPN base prefix (`<base>.<n>/32`) or a raw string. -/
inductive Aip
  | host (n : Nat)
  | raw (s : String)
deriving DecidableEq, Repr

/-- One line of an INI-like config file, encoding the line classifications
made by the Python regexes (see the module docstring). -/
inductive CLine
  | interfaceHeader
  | peerHeader
  | publicKey (k : String)
  | publicKeyBad (s : String)
  | presharedKey (k : String)
  | privateKeyLine (k : String)
  | allowedIPs (host : Nat)
  | allowedIPsRaw (s : String)
  | endpointLine (addr : String) (port : Nat)
  | jcLine (v : Nat)
  | addressLine (host : Nat)
  | blank
  | other (s : String)
deriving DecidableEq, Repr

/-- Text of a config line, given the VPN base prefix (e.g. `10.10.1`). -/
def CLine.render (base : String) : CLine → String
  | .interfaceHeader => "[Interface]"
  | .peerHeader => "[Peer]"
  | .publicKey k => "PublicKey = " ++ k
  | .publicKeyBad s => s
  | .presharedKey k => "PresharedKey = " ++ k
  | .privateKeyLine k => "PrivateKey = " ++ k
  | .allowedIPs h => "AllowedIPs = " ++ base ++ "." ++ toString h ++ "/32"
  | .allowedIPsRaw s => "AllowedIPs = " ++ s
  | .endpointLine a p => "Endpoint = " ++ a ++ ":" ++ toString p
  | .jcLine v => "Jc = " ++ toString v
  | .addressLine h => "Address = " ++ base ++ "." ++ toString h ++ "/32"
  | .blank => ""
  | .other s => s

/-- Full text of a config file: each line followed by a newline. -/
def renderConf (base : String) (lines : List CLine) : String :=
  String.join (lines.map (fun l => l.render base ++ "\n"))

/-- Host octets of all `AllowedIPs = <base>.<n>/32` lines anywhere in the
file — the matches of `re.findall(rf'AllowedIPs\s*=\s*{base}\.(\d+)/32', content)`
in `get_next_client_ip` (`bot/utils.py:123`), which scans the whole file,
not only `[Peer]` sections. -/
def allowedHosts (lines : List CLine) : List Nat :=
  lines.filterMap fun l =>
    match l with
    | .allowedIPs h => some h
    | _ => none

/-- Embedding of `get_next_client_ip` (`bot/utils.py:109-134`): `none` for the
config means the file is absent (return the configured start host); otherwise
take the maximum matched host octet plus one, or the start host if there are
no matches. -/
def get_next_client_ip (conf : Option (List CLine)) (startHost : Nat) : Nat :=
  match conf with
  | none => startHost
  | some lines =>
    match allowedHosts lines with
    | [] => startHost
    | h :: t => t.foldl max h + 1

/-- Peer section bodies, in document order: the matches of
`re.findall(r'\[Peer\]\s*\n(.*?)(?=\n\[Peer\]|\n\[Interface\]|\Z)', ...)`
in `reload_wg_config` (`bot/utils.py:327-331`).  Each `[Peer]` header opens
a section collecting the following lines until the next `[Peer]` or
`[Interface]` header or the end of file. -/
def peerSectionsAux : List CLine → Option (List CLine) → List (List CLine)
  | [], cur =>
    match cur with
    | some s => [s.reverse]
    | none => []
  | l :: ls, cur =>
    match l with
    | .peerHeader =>
      match cur with
      | some s => s.reverse :: peerSectionsAux ls (some [])
      | none => peerSectionsAux ls (some [])
    | .interfaceHeader =>
      match cur with
      | some s => s.reverse :: peerSectionsAux ls none
      | none => peerSectionsAux ls none
    | _ =>
      match cur with
      | some s => peerSectionsAux ls (some (l :: s))
      | none => peerSectionsAux ls none

/-- Peer section bodies of a config file (see `peerSectionsAux`). -/
def peerSections (lines : List CLine) : List (List CLine) :=
  peerSectionsAux lines none

/-- First `PublicKey` captured in a section body:
`re.search(r'PublicKey\s*=\s*([A-Za-z0-9+/=]{44})', section)`. -/
def firstPublicKey : List CLine → Option String
  | [] => none
  | .publicKey k :: _ => some k
  | _ :: ls => firstPublicKey ls

/-- First `PresharedKey` captured in a section body:
`re.search(r'PresharedKey\s*=\s*([A-Za-z0-9+/=]{44})', section)`. -/
def firstPresharedKey : List CLine → Option String
  | [] => none
  | .presharedKey k :: _ => some k
  | _ :: ls => firstPresharedKey ls

/-- First `AllowedIPs` value captured in a section body:
`re.search(r'AllowedIPs\s*=\s*([^\s]+)', section)` — matches both the
base-prefix `/32` form and any other value. -/
def firstAllowedIPs : List CLine → Option Aip
  | [] => none
  | .allowedIPs h :: _ => some (.host h)
  | .allowedIPsRaw s :: _ => some (.raw s)
  | _ :: ls => firstAllowedIPs ls

/-- First `PrivateKey` value in the rest of the file. -/
def firstPrivValue : List CLine → Option String
  | [] => none
  | .privateKeyLine k :: _ => some k
  | _ :: ls => firstPrivValue ls

/-- First `PrivateKey` after the first `[Interface]` header:
`re.search(r'\[Interface\].*?PrivateKey\s*=\s*([^\s]+)', content, re.DOTALL)`
(`bot/vpn_manager.py:136-140`, `bot/utils.py:78-82`). -/
def firstPrivAfterInterface : List CLine → Option String
  | [] => none
  | .interfaceHeader :: ls => firstPrivValue ls
  | _ :: ls => firstPrivAfterInterface ls

/-- First `PublicKey` value in the rest of the file (captures the
`[^\s]+` form used by `delete_client`, which the `publicKey` constructor
carries). -/
def firstPubValue : List CLine → Option String
  | [] => none
  | .publicKey k :: _ => some k
  | _ :: ls => firstPubValue ls

/-- First `PublicKey` after the first `[Peer]` header:
`re.search(r'\[Peer\].*?PublicKey\s*=\s*([^\s]+)', content, re.DOTALL)`
(`bot/vpn_manager.py:144-148`, the old-format fallback of `delete_client`). -/
def firstPubAfterPeer : List CLine → Option String
  | [] => none
  | .peerHeader :: ls => firstPubValue ls
  | _ :: ls => firstPubAfterPeer ls

/-- Host octets of `AllowedIPs = <base>.<n>/32` lines occurring inside
`[Peer]` sections only.  This follows the spec's words
("scans all Peer allowedIPs restricted to basePrefix.*/32"), for comparison
with `allowedHosts`, which is what the code computes. -/
def peerAllowedHosts (lines : List CLine) : List Nat :=
  (peerSections lines).flatMap allowedHosts

/-- Mutating command sent to the live interface.  The code of this
repository only ever constructs the `setPeer` form
(`bot/utils.py:367-369`); `removePeer` and `restartContainer` are in the
command alphabet so that their absence from every trace can be stated. -/
inductive WgCmd
  | setPeer (pk : String) (psk : Option String) (aip : Aip)
  | removePeer (pk : String)
  | restartContainer
deriving DecidableEq, Repr

/-- External read-only invocation (subprocess that does not mutate VPN or
file state). -/
inductive ExtQuery
  | dockerPs
  | wgShow
  | curlIp
  | wgPubkey
  | wgGenKeys
deriving DecidableEq, Repr

/-- Config file touched by an operation. -/
inductive FileId
  | serverConf
  | clientConf (name : String)
deriving DecidableEq, Repr

/-- Tag identifying which chat message a handler sends (the Russian text
itself is not modelled, only which of the distinct messages it is). -/
inductive MsgTag
  | refusal
  | welcome
  | usage
  | badName
  | creating
  | created
  | createFailed
  | duplicateClient
  | noServerConf
  | keyGenFailed
  | notFound
  | deleted
  | deletedNoKey
  | pubkeyError
  | deleteFailed
  | qrPhoto
  | configFile
  | keeneticInfo
  | clientsList
  | statusReport
  | applying
  | applyResult
  | confirmDelete
  | cancelled
deriving DecidableEq, Repr

/-- One observable side effect of an operation, in program order. -/
inductive BotEffect
  | reply (m : MsgTag)
  | editMessage (m : MsgTag)
  | answerCallback
  | fsRead (f : FileId)
  | fsWrite (f : FileId)
  | fsDelete (f : FileId)
  | query (q : ExtQuery)
  | cmd (c : WgCmd)
deriving DecidableEq, Repr

/-- Outcome of the single `wg set` invocation `reload_wg_config` may make:
exit code 0, a failure whose stderr/stdout contains "already exists" or
"file exists" (case-insensitively), or any other failure
(`bot/utils.py:391-402`). -/
inductive SetPeerResult
  | ok
  | alreadyExists
  | err
deriving DecidableEq, Repr

/-- Environment seen by a reconciliation pass: the public keys parsed from
`wg show <interface>` output (`peer:\s*([A-Za-z0-9+/=]{44})`,
`bot/utils.py:315`) and the oracle for the `wg set` command. -/
structure WgEnv where
  live : List String
  setRes : SetPeerResult
deriving DecidableEq, Repr

/-- Which of the distinct return points of `reload_wg_config` produced the
result. -/
inductive RMsg
  | noConfig
  | upToDateNoPeers
  | alreadyApplied
  | noPublicKey
  | noAllowedIPs
  | applied
  | alreadyExistsOk
  | addError
deriving DecidableEq, Repr

/-- Result of a reconciliation pass: the returned boolean, the return point,
and the effect trace. -/
structure ReloadOut where
  ok : Bool
  msg : RMsg
  effects : List BotEffect
deriving DecidableEq, Repr

/-- Embedding of `reload_wg_config` (`bot/utils.py:299-409`).  The pass:
checks that `wg0.conf` exists; looks up the container and queries `wg show`
for the live peer keys; reads the config and takes the LAST `[Peer]`
section; extracts its public key (failing if absent); returns success with
no command if that key is already live; otherwise extracts `AllowedIPs`
(failing if absent) and issues one `wg set` carrying the key, the optional
preshared key and the allowed IPs, treating an "already exists" error from
it as success. -/
def reload_wg_config (conf : Option (List CLine)) (env : WgEnv) : ReloadOut :=
  match conf with
  | none => ⟨false, .noConfig, []⟩
  | some lines =>
    let pre : List BotEffect :=
      [.query .dockerPs, .query .wgShow, .fsRead .serverConf]
    match (peerSections lines).getLast? with
    | none => ⟨true, .upToDateNoPeers, pre⟩
    | some sec =>
      match firstPublicKey sec with
      | none => ⟨false, .noPublicKey, pre⟩
      | some pk =>
        if pk ∈ env.live then ⟨true, .alreadyApplied, pre⟩
        else
          match firstAllowedIPs sec with
          | none => ⟨false, .noAllowedIPs, pre⟩
          | some aip =>
            let c : BotEffect := .cmd (.setPeer pk (firstPresharedKey sec) aip)
            match env.setRes with
            | .ok => ⟨true, .applied, pre ++ [c]⟩
            | .alreadyExists => ⟨true, .alreadyExistsOk, pre ++ [c]⟩
            | .err => ⟨false, .addError, pre ++ [c]⟩

/-- Embedding of `restart_vpn` (`bot/utils.py:411-416`): it delegates
unconditionally to `reload_wg_config`. -/
def restart_vpn (conf : Option (List CLine)) (env : WgEnv) : ReloadOut :=
  reload_wg_config conf env

/-- Mutating commands contained in an effect trace. -/
def mutCmds (effs : List BotEffect) : List WgCmd :=
  effs.filterMap fun e =>
    match e with
    | .cmd c => some c
    | _ => none

/-- Public keys of the `wg set peer` commands in an effect trace. -/
def issuedKeys (effs : List BotEffect) : List String :=
  effs.filterMap fun e =>
    match e with
    | .cmd (.setPeer pk _ _) => some pk
    | _ => none

/-- Tests whether an effect is a live-peer removal or a container restart. -/
def isDisruptive : BotEffect → Bool
  | .cmd (.removePeer _) => true
  | .cmd .restartContainer => true
  | _ => false

/-- Public keys of the declared `[Peer]` sections, in document order. -/
def declaredKeys (lines : List CLine) : List String :=
  (peerSections lines).filterMap firstPublicKey

/-- Prefix of the line list strictly before the last `[Peer]` header, or
`none` when there is no `[Peer]` header.  This is
`new_lines[:last_peer_idx]` where `last_peer_idx` is found by the backwards
scan in `delete_client` (`bot/vpn_manager.py:203-211`). -/
def truncAtLastPeer : List CLine → Option (List CLine)
  | [] => none
  | l :: ls =>
    match truncAtLastPeer ls with
    | some r => some (l :: r)
    | none => if l = .peerHeader then some ([] : List CLine) else none

/-- State of the line-copying loop of `delete_client`
(`bot/vpn_manager.py:181-234`): the output lines built so far
(`new_lines`), the `skip_current_peer` flag and the `peer_found` flag. -/
structure DelSt where
  acc : List CLine
  skip : Bool
  found : Bool
deriving DecidableEq, Repr

/-- One iteration of the `delete_client` line loop
(`bot/vpn_manager.py:185-234`), for the client public key `key`:
a `[Peer]` header resets the skip flag and is copied; a parseable
`PublicKey` line with the matching key truncates the output at the last
`[Peer]` header (copying nothing and skipping on, and merely skipping when
no `[Peer]` header was seen); any other `PublicKey`-shaped line is copied
(note: regardless of the skip flag, as in the source); any other header
resets the skip flag and is copied; every remaining line is copied unless
the skip flag is set. -/
def delStep (key : String) (st : DelSt) (l : CLine) : DelSt :=
  match l with
  | .peerHeader => ⟨st.acc ++ [l], false, st.found⟩
  | .interfaceHeader => ⟨st.acc ++ [l], false, st.found⟩
  | .publicKey k =>
    if k = key then
      match truncAtLastPeer st.acc with
      | some r => ⟨r, true, true⟩
      | none => ⟨st.acc, true, true⟩
    else ⟨st.acc ++ [l], st.skip, st.found⟩
  | .publicKeyBad _ => ⟨st.acc ++ [l], st.skip, st.found⟩
  | _ => if st.skip then st else ⟨st.acc ++ [l], st.skip, st.found⟩

/-- Server-config rewrite performed by `delete_client`
(`bot/vpn_manager.py:177-238`): run the line loop over the whole file and
return the new lines together with the `peer_found` flag. -/
def delRewrite (key : String) (lines : List CLine) : List CLine × Bool :=
  let st := lines.foldl (delStep key) ⟨[], false, false⟩
  (st.acc, st.found)

/-- Obfuscation parameter set (`Jc, Jmin, Jmax, S1, S2, H1..H4`), as loaded
into the `AMNEZIA_*` settings (`config/settings.py:146-155`). -/
structure AzParams where
  jc : Nat
  jmin : Nat
  jmax : Nat
  s1 : Nat
  s2 : Nat
  h1 : Nat
  h2 : Nat
  h3 : Nat
  h4 : Nat
deriving DecidableEq, Repr

/-- Config lines of the obfuscation block `get_client_config` injects
before the `[Peer]` section (`bot/vpn_manager.py:360-370`): the nine
parameter lines followed by a blank line. -/
def amneziaLines (p : AzParams) : List CLine :=
  [.jcLine p.jc,
   .other ("Jmin = " ++ toString p.jmin),
   .other ("Jmax = " ++ toString p.jmax),
   .other ("S1 = " ++ toString p.s1),
   .other ("S2 = " ++ toString p.s2),
   .other ("H1 = " ++ toString p.h1),
   .other ("H2 = " ++ toString p.h2),
   .other ("H3 = " ++ toString p.h3),
   .other ("H4 = " ++ toString p.h4),
   .blank]

/-- Filesystem state: the optional server config `wg0.conf` and the client
config files, keyed by client name (`<name>.conf`). -/
structure FS where
  serverConf : Option (List CLine)
  clients : List (String × List CLine)
deriving DecidableEq, Repr

/-- Content of the client config file `<name>.conf`, or `none` when it does
not exist. -/
def FS.lookupClient (fs : FS) (name : String) : Option (List CLine) :=
  (fs.clients.find? (fun p => p.1 == name)).map Prod.snd

/-- Filesystem after removing the client config file `<name>.conf`. -/
def FS.removeClient (fs : FS) (name : String) : FS :=
  ⟨fs.serverConf, fs.clients.filter (fun p => !(p.1 == name))⟩

/-- External collaborators, assumed correct and passed in as parameters:
`wg pubkey` (key derivation, `none` modelling a nonzero exit), `wg genkey`/
`wg pubkey`/`wg genpsk` (the `(privateKey, publicKey, presharedKey)` triple
of `generate_keys`, `none` modelling any failure), `curl ifconfig.me`
(external IP, `"UNKNOWN_IP"` on failure), the settings constants read at
startup, and the live-interface environment. -/
structure Ext where
  wgPub : String → Option String
  keys : Option (String × String × String)
  extIp : String
  dns : String
  wgPort : Nat
  startHost : Nat
  az : AzParams
  qrOk : Bool
  wg : WgEnv

/-- Result of a client-management operation: the returned boolean, the
resulting filesystem, the effect trace, and which message was produced. -/
structure OpOut where
  ok : Bool
  fs : FS
  effects : List BotEffect
  msg : MsgTag
deriving Repr

/-- Embedding of `get_server_public_key` (`bot/utils.py:66-107`): read the
server config, extract the first `PrivateKey` after `[Interface]`, and
derive the public key with `wg pubkey`. -/
def get_server_public_key (ext : Ext) (fs : FS) : Option String :=
  match fs.serverConf with
  | none => none
  | some sl =>
    match firstPrivAfterInterface sl with
    | none => none
    | some priv => ext.wgPub priv

/-- Client config text written to disk by `create_client`
(`bot/vpn_manager.py:72-82`): the minimal mode without obfuscation
parameters. -/
def clientBasicConf (ext : Ext) (priv : String) (hostIp : Nat)
    (spk psk : String) : List CLine :=
  [.interfaceHeader,
   .privateKeyLine priv,
   .addressLine hostIp,
   .other ("DNS = " ++ ext.dns),
   .blank,
   .peerHeader,
   .publicKey spk,
   .presharedKey psk,
   .endpointLine ext.extIp ext.wgPort,
   .allowedIPsRaw "0.0.0.0/0",
   .other "PersistentKeepalive = 25"]

/-- Embedding of `create_client` (`bot/vpn_manager.py:30-115`).  Fails
without touching anything when `<name>.conf` already exists or when
`wg0.conf` is absent; queries the external IP, derives the server public
key, computes the next client host octet and generates the key triple,
failing (still without writes) when key material is unavailable; otherwise
appends the new `[Peer]` section to the server config and writes the
client's minimal config file. -/
def create_client (name : String) (ext : Ext) (fs : FS) : OpOut :=
  match fs.lookupClient name with
  | some _ => ⟨false, fs, [], .duplicateClient⟩
  | none =>
    match fs.serverConf with
    | none => ⟨false, fs, [], .noServerConf⟩
    | some sl =>
      let effs0 : List BotEffect :=
        [.query .curlIp, .fsRead .serverConf, .query .wgPubkey,
         .fsRead .serverConf, .query .wgGenKeys]
      match ext.keys, get_server_public_key ext fs with
      | some (priv, pub, psk), some spk =>
        let hostIp := get_next_client_ip fs.serverConf ext.startHost
        let peerLines : List CLine :=
          [.blank, .peerHeader, .publicKey pub, .presharedKey psk,
           .allowedIPs hostIp]
        let cconf := clientBasicConf ext priv hostIp spk psk
        ⟨true,
         ⟨some (sl ++ peerLines), (name, cconf) :: fs.clients⟩,
         effs0 ++ [.fsWrite .serverConf, .fsWrite (.clientConf name)],
         .created⟩
      | _, _ => ⟨false, fs, effs0, .keyGenFailed⟩

/-- Shared tail of `delete_client` once the client public key is known
(`bot/vpn_manager.py:176-249`): if the server config exists, run the
line-loop rewrite and write the result back (the write happens even when
the key was not found); then delete the client's config file and report
success. -/
def deleteWithKey (name cpk : String) (fs : FS) (effs : List BotEffect) :
    OpOut :=
  match fs.serverConf with
  | none =>
    ⟨true, fs.removeClient name,
     effs ++ [.fsDelete (.clientConf name)], .deleted⟩
  | some sl =>
    let nl := (delRewrite cpk sl).1
    ⟨true, ⟨some nl, (fs.removeClient name).clients⟩,
     effs ++ [.fsRead .serverConf, .fsWrite .serverConf,
              .fsDelete (.clientConf name)],
     .deleted⟩

/-- Embedding of `delete_client` (`bot/vpn_manager.py:117-253`).  Fails
with a not-found report when `<name>.conf` does not exist.  Otherwise reads
the client file and obtains the client public key: from the first
`[Interface]` `PrivateKey` via `wg pubkey` (removing the client file and
failing when derivation fails), or, in the old-format fallback, from the
first `[Peer]` `PublicKey`; when neither is present the client file is
removed and success is reported without a server rewrite.  With the key in
hand it proceeds as `deleteWithKey`. -/
def delete_client (name : String) (ext : Ext) (fs : FS) : OpOut :=
  match fs.lookupClient name with
  | none => ⟨false, fs, [], .notFound⟩
  | some cl =>
    let r : List BotEffect := [.fsRead (.clientConf name)]
    match firstPrivAfterInterface cl with
    | some priv =>
      match ext.wgPub priv with
      | none =>
        ⟨false, fs.removeClient name,
         r ++ [.query .wgPubkey, .fsDelete (.clientConf name)],
         .pubkeyError⟩
      | some cpk => deleteWithKey name cpk fs (r ++ [.query .wgPubkey])
    | none =>
      match firstPubAfterPeer cl with
      | none =>
        ⟨true, fs.removeClient name,
         r ++ [.fsDelete (.clientConf name)], .deletedNoKey⟩
      | some cpk => deleteWithKey name cpk fs r

/-- Tests whether a line is an `Endpoint` line with an IPv6 address
(contains a colon and no dot, `bot/vpn_manager.py:339`). -/
def isV6Endpoint : CLine → Bool
  | .endpointLine a _ => a.data.contains ':' && !(a.data.contains '.')
  | _ => false

/-- IPv6-to-IPv4 endpoint substitution of `get_client_config`
(`bot/vpn_manager.py:331-347`): an `Endpoint` line whose address is IPv6 is
rewritten to the freshly discovered external IPv4 address (same port),
unless that discovery failed. -/
def endpointRewrite (extIp : String) (l : CLine) : CLine :=
  match l with
  | .endpointLine a p =>
    if (a.data.contains ':' && !(a.data.contains '.'))
        && !(extIp == "UNKNOWN_IP") then
      .endpointLine extIp p
    else l
  | _ => l

/-- Tests for an obfuscation `Jc =` line (the `'Jc =' in config_content`
check, `bot/vpn_manager.py:351`). -/
def isJcLine : CLine → Bool
  | .jcLine _ => true
  | _ => false

/-- Split at the first `[Peer]` header (`config_content.find('[Peer]')`,
`bot/vpn_manager.py:355`): everything before it, and the rest starting with
the header; `none` when there is no `[Peer]` header. -/
def splitAtFirstPeer : List CLine → Option (List CLine × List CLine)
  | [] => none
  | l :: ls =>
    if l = .peerHeader then some ([], l :: ls)
    else
      match splitAtFirstPeer ls with
      | none => none
      | some (a, b) => some (l :: a, b)

/-- Embedding of `get_client_config` (`bot/vpn_manager.py:318-378`): return
`none` when `<name>.conf` does not exist; otherwise read it, substitute
IPv4 for IPv6 endpoints (querying the external IP once per IPv6 endpoint),
return the text as-is when a `Jc =` line is already present or when there
is no `[Peer]` section, and otherwise inject the obfuscation block
immediately before the `[Peer]` section.  The function performs no write. -/
def get_client_config (name : String) (ext : Ext) (fs : FS) :
    Option (List CLine) × List BotEffect :=
  match fs.lookupClient name with
  | none => (none, [])
  | some cl =>
    let cl1 := cl.map (endpointRewrite ext.extIp)
    let effs : List BotEffect :=
      .fsRead (.clientConf name) ::
        (cl.filter isV6Endpoint).map (fun _ => .query .curlIp)
    if cl1.any isJcLine then (some cl1, effs)
    else
      match splitAtFirstPeer cl1 with
      | none => (some cl1, effs)
      | some (a, b) => (some (a ++ amneziaLines ext.az ++ b), effs)

/-- Embedding of the client-name validation
`re.match(r'^[a-zA-Z0-9_-]+$', client_name)` (`bot/handlers.py:87`). -/
def validName (s : String) : Bool :=
  !s.isEmpty && s.toList.all (fun c => c.isAlphanum || c == '_' || c == '-')

/-- Embedding of `is_admin` (`config/settings.py:163-165`): membership of
the user id in the `ADMIN_IDS` allow-list. -/
def is_admin (admins : List Int) (uid : Int) : Bool :=
  admins.contains uid

/-- Declared peers matched by the `list_clients` pattern
`\[Peer\]\s*\nPublicKey\s*=\s*([^\s]+)\s*\n(?:PresharedKey\s*=\s*[^\s]+\s*\n)?AllowedIPs\s*=\s*{base}\.(\d+)/32`
(`bot/vpn_manager.py:269`): a `[Peer]` header immediately followed by a
`PublicKey` line, an optional `PresharedKey` line, and a base-prefix
`AllowedIPs` line. -/
def listPeersStrict : List CLine → List (String × Nat)
  | .peerHeader :: .publicKey k :: .presharedKey _ :: .allowedIPs h :: ls =>
    (k, h) :: listPeersStrict ls
  | .peerHeader :: .publicKey k :: .allowedIPs h :: ls =>
    (k, h) :: listPeersStrict ls
  | _ :: ls => listPeersStrict ls
  | [] => []

/-- File accesses performed by `list_clients` (`bot/vpn_manager.py:255-316`):
nothing when `wg0.conf` is absent; otherwise one read of the server config,
and — only when the peer pattern matched — one read of every client config
file (the directory scan for `*.conf` files other than `wg0.conf`). -/
def list_clients_effects (fs : FS) : List BotEffect :=
  match fs.serverConf with
  | none => []
  | some sl =>
    if listPeersStrict sl = [] then [.fsRead .serverConf]
    else
      .fsRead .serverConf ::
        fs.clients.map (fun p => .fsRead (.clientConf p.1))

/-- Chat entry point together with its inputs: the invoking user's id and,
for commands that take them, the arguments or the callback data. -/
inductive HCall
  | start (uid : Int)
  | help (uid : Int)
  | addClient (uid : Int) (args : List String)
  | getConfig (uid : Int) (args : List String)
  | listClients (uid : Int)
  | statusCmd (uid : Int)
  | restartCmd (uid : Int)
  | deleteClientCmd (uid : Int) (args : List String)
  | button (uid : Int) (data : String)
deriving DecidableEq, Repr

/-- Invoking user's id of a chat entry point. -/
def HCall.uid : HCall → Int
  | .start u => u
  | .help u => u
  | .addClient u _ => u
  | .getConfig u _ => u
  | .listClients u => u
  | .statusCmd u => u
  | .restartCmd u => u
  | .deleteClientCmd u _ => u
  | .button u _ => u

/-- Embedding of the command handlers (`bot/handlers.py:44-299`).  Every
handler first checks `is_admin` and answers with a refusal otherwise
(`button_handler` acknowledges the callback before the check, then edits
the message to a refusal); the admin branches mirror the source:
`/start` and `/help` print the welcome text; `/add_client` validates the
argument and name, sends a progress message, runs `create_client` and, on
success, `restart_vpn`; `/get_config` renders via `get_client_config` and
sends the QR code, the config file and the router instructions;
`/list_clients`, `/status` and `/restart` delegate to the corresponding
operations; `/delete_client` only asks for confirmation; the button
callback runs `delete_client` and then `restart_vpn` on `delete_yes_<name>`
data, and cancels on `delete_no`. -/
def handle (admins : List Int) (ext : Ext) (fs : FS) :
    HCall → FS × List BotEffect
  | .start uid =>
    if is_admin admins uid then (fs, [.reply .welcome])
    else (fs, [.reply .refusal])
  | .help uid =>
    if is_admin admins uid then (fs, [.reply .welcome])
    else (fs, [.reply .refusal])
  | .addClient uid args =>
    if is_admin admins uid then
      match args with
      | [] => (fs, [.reply .usage])
      | name :: _ =>
        if validName name then
          let r := create_client name ext fs
          if r.ok then
            let rr := restart_vpn r.fs.serverConf ext.wg
            (r.fs, .reply .creating :: (r.effects ++ rr.effects
              ++ [.reply .created]))
          else
            (r.fs, .reply .creating :: (r.effects ++ [.reply .createFailed]))
        else (fs, [.reply .badName])
    else (fs, [.reply .refusal])
  | .getConfig uid args =>
    if is_admin admins uid then
      match args with
      | [] => (fs, [.reply .usage])
      | name :: _ =>
        let g := get_client_config name ext fs
        match g.1 with
        | none => (fs, g.2 ++ [.reply .notFound])
        | some _ =>
          (fs, g.2 ++ (if ext.qrOk then [.reply .qrPhoto] else [])
            ++ [.reply .configFile, .reply .keeneticInfo])
    else (fs, [.reply .refusal])
  | .listClients uid =>
    if is_admin admins uid then
      (fs, list_clients_effects fs ++ [.reply .clientsList])
    else (fs, [.reply .refusal])
  | .statusCmd uid =>
    if is_admin admins uid then
      (fs, [.query .dockerPs, .query .wgShow, .query .curlIp,
            .reply .statusReport])
    else (fs, [.reply .refusal])
  | .restartCmd uid =>
    if is_admin admins uid then
      let rr := restart_vpn fs.serverConf ext.wg
      (fs, .reply .applying :: (rr.effects ++ [.reply .applyResult]))
    else (fs, [.reply .refusal])
  | .deleteClientCmd uid args =>
    if is_admin admins uid then
      match args with
      | [] => (fs, [.reply .usage])
      | name :: _ =>
        match fs.lookupClient name with
        | none => (fs, [.reply .notFound])
        | some _ => (fs, [.reply .confirmDelete])
    else (fs, [.reply .refusal])
  | .button uid data =>
    if is_admin admins uid then
      if data.startsWith "delete_yes_" then
        let name := data.replace "delete_yes_" ""
        let r := delete_client name ext fs
        if r.ok then
          let rr := restart_vpn r.fs.serverConf ext.wg
          (r.fs, .answerCallback :: (r.effects ++ rr.effects
            ++ [.editMessage .deleted]))
        else
          (r.fs, .answerCallback :: (r.effects
            ++ [.editMessage .deleteFailed]))
      else if data == "delete_no" then
        (fs, [.answerCallback, .editMessage .cancelled])
      else (fs, [.answerCallback])
    else (fs, [.answerCallback, .editMessage .refusal])

/-- Tests whether an effect is pure chat traffic (a reply, a message edit
or a callback acknowledgement), as opposed to a file access, an external
query or a mutating command. -/
def isPureChatEffect : BotEffect → Bool
  | .reply _ => true
  | .editMessage _ => true
  | .answerCallback => true
  | _ => false

/-- Tests whether a mutating command is the single-peer add/update form. -/
def isSetPeerCmd : WgCmd → Bool
  | .setPeer _ _ _ => true
  | _ => false

/-- Tests whether an effect writes to or deletes a file. -/
def isWriteEffect : BotEffect → Bool
  | .fsWrite _ => true
  | .fsDelete _ => true
  | _ => false

/-- Tests whether a line is unaffected by the skip flag of the
`delete_client` loop, i.e. is neither a section header nor a
`PublicKey`-shaped line. -/
def isSkippable : CLine → Bool
  | .peerHeader => false
  | .interfaceHeader => false
  | .publicKey _ => false
  | .publicKeyBad _ => false
  | _ => true

/-- Number of `Jc =` obfuscation lines in a config. -/
def countJc (l : List CLine) : Nat :=
  l.countP (fun x => isJcLine x)

/-! Concrete data used by counterexamples and witnesses.  The key strings
have the canonical 44-character base64 shape the regexes require. -/

/-- Sample client public key A. -/
def pkA : String := "aaaaaaaaaaaaaaaaaaaaaaaaaaaaaaaaaaaaaaaaaaA="

/-- Sample client public key B. -/
def pkB : String := "bbbbbbbbbbbbbbbbbbbbbbbbbbbbbbbbbbbbbbbbbbB="

/-- Sample preshared key A. -/
def pskA : String := "pppppppppppppppppppppppppppppppppppppppppp1="

/-- Sample preshared key B. -/
def pskB : String := "pppppppppppppppppppppppppppppppppppppppppp2="

/-- Sample client private key. -/
def privA : String := "qqqqqqqqqqqqqqqqqqqqqqqqqqqqqqqqqqqqqqqqqq1="

/-- Sample server private key. -/
def srvPriv : String := "ssssssssssssssssssssssssssssssssssssssssss1="

/-- Sample server public key. -/
def srvPub : String := "SSSSSSSSSSSSSSSSSSSSSSSSSSSSSSSSSSSSSSSSSS2="

/-- Server config with an `AllowedIPs = <base>.200/32` line inside the
`[Interface]` section and one `[Peer]` whose `AllowedIPs` host octet is 2. -/
def cexConfC3 : List CLine :=
  [.interfaceHeader, .privateKeyLine srvPriv, .allowedIPs 200, .blank,
   .peerHeader, .publicKey pkA, .allowedIPs 2]

/-- Server config whose `[Peer]` host octets are 2, 3 and 5. -/
def confHosts235 : List CLine :=
  [.interfaceHeader, .privateKeyLine srvPriv, .blank,
   .peerHeader, .publicKey pkA, .allowedIPs 2, .blank,
   .peerHeader, .publicKey pkB, .allowedIPs 3, .blank,
   .peerHeader, .publicKey srvPub, .allowedIPs 5]

/-- Server config declaring two peers: `pkA` (host 2) then `pkB` (host 3). -/
def cfgC1 : List CLine :=
  [.interfaceHeader, .privateKeyLine srvPriv, .blank,
   .peerHeader, .publicKey pkA, .presharedKey pskA, .allowedIPs 2, .blank,
   .peerHeader, .publicKey pkB, .presharedKey pskB, .allowedIPs 3]

/-- Live environment where only `pkB` is present and `wg set` would
succeed. -/
def envC1 : WgEnv := ⟨[pkB], .ok⟩

/-- Live environment with an empty peer table and a succeeding `wg set`. -/
def envEmpty : WgEnv := ⟨[], .ok⟩

/-- Live environment with an empty peer table where `wg set` fails with an
error other than "already exists". -/
def envErr : WgEnv := ⟨[], .err⟩

/-- Obfuscation parameters used by concrete examples. -/
def azW : AzParams := ⟨2, 10, 50, 42, 94, 1, 2, 3, 4⟩

/-- Server config for the `delete_client` witness: an `[Interface]`
section, the `pkA` peer, then the `pkB` peer. -/
def slW : List CLine :=
  [.interfaceHeader, .privateKeyLine srvPriv, .blank,
   .peerHeader, .publicKey pkA, .presharedKey pskA, .allowedIPs 2, .blank,
   .peerHeader, .publicKey pkB, .allowedIPs 3]

/-- Server config without any `pkA` peer. -/
def slW2 : List CLine :=
  [.interfaceHeader, .privateKeyLine srvPriv, .blank,
   .peerHeader, .publicKey pkB, .allowedIPs 3]

/-- Minimal client config file carrying the client private key. -/
def clW : List CLine :=
  [.interfaceHeader, .privateKeyLine privA]

/-- External collaborators used by concrete examples: `wg pubkey` derives
`pkA` from `privA` and `srvPub` from `srvPriv`. -/
def extW : Ext :=
  { wgPub := fun s =>
      if s == privA then some pkA
      else if s == srvPriv then some srvPub
      else none
    keys := some (privA, pkA, pskA)
    extIp := "203.0.113.5"
    dns := "1.1.1.1, 8.8.8.8"
    wgPort := 51820
    startHost := 2
    az := azW
    qrOk := true
    wg := envEmpty }

/-- Filesystem with client `alice` (file `clW`) and server config `slW`. -/
def fsW : FS := ⟨some slW, [("alice", clW)]⟩

/-- Filesystem with client `bob` (file `clW`) and server config `slW2`. -/
def fsW2 : FS := ⟨some slW2, [("bob", clW)]⟩

/-- Server config with no `[Peer]` sections (base prefix `10.10.1`,
server address host 1). -/
def sl0 : List CLine :=
  [.interfaceHeader, .privateKeyLine srvPriv,
   .other "Address = 10.10.1.1/24", .other "ListenPort = 51820"]

/-- Filesystem holding only the empty-peer server config. -/
def fs0 : FS := ⟨some sl0, []⟩

/-- Client config whose stored text already carries the obfuscation block. -/
def clJc : List CLine :=
  [.interfaceHeader, .privateKeyLine privA, .jcLine 2, .blank,
   .peerHeader, .publicKey srvPub, .endpointLine "203.0.113.9" 51820]

/-- Filesystem with client `carol` whose stored config carries `Jc`. -/
def fsJc : FS := ⟨some sl0, [("carol", clJc)]⟩

/-! Helper lemmas. -/

/-- Left fold of `max` over a list returns an element of the list (with the
seed counted as an element). -/
theorem foldl_max_mem (a : Nat) (t : List Nat) : t.foldl max a ∈ a :: t := by
  induction t generalizing a with
  | nil => simp
  | cons x xs ih =>
    simp only [List.foldl_cons]
    rcases List.mem_cons.mp (ih (max a x)) with h | h
    · rcases max_choice a x with hm | hm <;> rw [hm] at h ⊢ <;> simp [h]
    · simp [List.mem_cons_of_mem, h]

/-- Left fold of `max` over a list bounds every element of the list (and
the seed). -/
theorem le_foldl_max (a : Nat) (t : List Nat) :
    ∀ x ∈ a :: t, x ≤ t.foldl max a := by
  induction t generalizing a with
  | nil =>
    intro x hx
    simp only [List.mem_singleton] at hx
    simp [hx]
  | cons y ys ih =>
    intro x hx
    simp only [List.foldl_cons]
    rcases List.mem_cons.mp hx with rfl | hx
    · exact le_trans (Nat.le_max_left x y)
        (ih (max x y) _ (List.mem_cons_self _ _))
    rcases List.mem_cons.mp hx with rfl | hx
    · exact le_trans (Nat.le_max_right a x)
        (ih (max a x) _ (List.mem_cons_self _ _))
    · exact ih (max a y) x (List.mem_cons_of_mem _ hx)

/-! Claim theorems. -/

/-- Claim C3, counterexample.  The claim restricts the scan to `[Peer]`
`AllowedIPs` entries; on a config whose `[Interface]` section also carries
an `AllowedIPs = <base>.200/32` line, the peer host octets are `{2}` — the
claim predicts `3` — but `get_next_client_ip` scans the whole file and
returns `201`. -/
theorem get_next_client_ip_cex :
    peerAllowedHosts cexConfC3 = [2] ∧
    get_next_client_ip (some cexConfC3) 2 = 201 ∧
    get_next_client_ip (some cexConfC3) 2 ≠ 2 + 1 := by
  decide

/-- Claim C3, amended.  `get_next_client_ip` is a pure function of the config:
it returns the start host when the file is absent or no
`AllowedIPs = <base>.N/32` line occurs anywhere in it, and otherwise one
more than the maximum matched host octet (taken over the whole file, not
only `[Peer]` sections). -/
theorem get_next_client_ip_correct (lines : List CLine) (startHost : Nat) :
    get_next_client_ip none startHost = startHost ∧
    (allowedHosts lines = [] →
      get_next_client_ip (some lines) startHost = startHost) ∧
    (allowedHosts lines ≠ [] →
      (get_next_client_ip (some lines) startHost - 1 ∈ allowedHosts lines ∧
       ∀ x ∈ allowedHosts lines,
         x < get_next_client_ip (some lines) startHost)) := by
  refine ⟨rfl, ?_, ?_⟩
  · intro h
    simp [get_next_client_ip, h]
  · intro h
    match hs : allowedHosts lines with
    | [] => exact absurd hs h
    | a :: t =>
      have hval : get_next_client_ip (some lines) startHost =
          t.foldl max a + 1 := by
        simp [get_next_client_ip, hs]
      constructor
      · rw [hval, Nat.add_sub_cancel]
        exact foldl_max_mem a t
      · intro x hx
        rw [hval]
        exact Nat.lt_succ_of_le (le_foldl_max a t x hx)

/-- Claim C3 witness: on the config with peer host octets `{2,3,5}` and start
host 2 the function returns 6, which is in-range per the amended theorem. -/
theorem get_next_client_ip_correct_witness :
    (get_next_client_ip (some confHosts235) 2 - 1 ∈
      allowedHosts confHosts235) ∧
    5 < get_next_client_ip (some confHosts235) 2 ∧
    get_next_client_ip (some confHosts235) 2 = 6 :=
  ⟨((get_next_client_ip_correct confHosts235 2).2.2 (by decide)).1,
   ((get_next_client_ip_correct confHosts235 2).2.2 (by decide)).2 5
     (by decide),
   by decide⟩

/-- Claim C1, counterexample.  The claim says a single pass issues one set-peer
command for EACH declared `[Peer]` section whose key is absent from the
live table.  On a config declaring `pkA` then `pkB`, with only `pkB` live,
`pkA` is declared and absent from the live table, yet the pass reports
success and issues zero mutating commands (it only ever considers the last
section). -/
theorem reload_each_absent_peer_cex :
    declaredKeys cfgC1 = [pkA, pkB] ∧
    pkA ∉ envC1.live ∧
    (reload_wg_config (some cfgC1) envC1).ok = true ∧
    mutCmds (reload_wg_config (some cfgC1) envC1).effects = [] := by
  decide

/-- Claim C1, amended.  A single `reload_wg_config` pass considers only the LAST
declared `[Peer]` section: when its public key is already live the pass is
an idempotent no-op (success, zero mutating commands); when it is absent
and the section carries an `AllowedIPs` value, exactly one set-peer command
is issued, carrying that key, the section's optional preshared key and its
allowed IPs, and the pass succeeds iff the primitive succeeds or fails with
"already exists" (which is treated as success).  Declared peers in earlier
sections are never added. -/
theorem reload_last_peer_only (lines : List CLine) (env : WgEnv)
    (sec : List CLine) (pk : String)
    (hsec : (peerSections lines).getLast? = some sec)
    (hpk : firstPublicKey sec = some pk) :
    (pk ∈ env.live →
      (reload_wg_config (some lines) env).ok = true ∧
      mutCmds (reload_wg_config (some lines) env).effects = []) ∧
    (pk ∉ env.live → ∀ aip, firstAllowedIPs sec = some aip →
      mutCmds (reload_wg_config (some lines) env).effects =
        [WgCmd.setPeer pk (firstPresharedKey sec) aip] ∧
      ((reload_wg_config (some lines) env).ok = true ↔
        env.setRes ≠ SetPeerResult.err)) := by
  constructor
  · intro hin
    simp [reload_wg_config, hsec, hpk, hin, mutCmds]
  · intro hout aip haip
    rcases hres : env.setRes with _ | _ | _ <;>
      simp [reload_wg_config, hsec, hpk, hout, haip, hres, mutCmds]

/-- Claim C1 witness: with only `pkB` live, the pass on `cfgC1` is a no-op; with
nothing live, it issues exactly the set-peer command for `pkB` (host 3)
and succeeds. -/
theorem reload_last_peer_only_witness :
    ((reload_wg_config (some cfgC1) envC1).ok = true ∧
     mutCmds (reload_wg_config (some cfgC1) envC1).effects = []) ∧
    (mutCmds (reload_wg_config (some cfgC1) envEmpty).effects =
      [WgCmd.setPeer pkB (some pskB) (Aip.host 3)] ∧
     ((reload_wg_config (some cfgC1) envEmpty).ok = true ↔
       envEmpty.setRes ≠ SetPeerResult.err)) :=
  ⟨(reload_last_peer_only cfgC1 envC1
      [.publicKey pkB, .presharedKey pskB, .allowedIPs 3] pkB
      (by decide) (by decide)).1 (by decide),
   (reload_last_peer_only cfgC1 envEmpty
      [.publicKey pkB, .presharedKey pskB, .allowedIPs 3] pkB
      (by decide) (by decide)).2 (by decide) (Aip.host 3) (by decide)⟩

/-- Claim C2, counterexample.  The claim says that when the incremental apply
fails, `restart_vpn` falls back to the full restart strategy and reports
success attributed to it.  On a config whose last peer is absent from the
live table and a `wg set` that fails (primitive unavailable), `restart_vpn`
reports failure and its trace contains no container-restart (and no
removal) command: there is no fallback. -/
theorem restart_vpn_fallback_cex :
    (restart_vpn (some cfgC1) envErr).ok = false ∧
    (restart_vpn (some cfgC1) envErr).effects.all
      (fun e => !isDisruptive e) = true := by
  decide

/-- Claim C2, amended.  `restart_vpn` delegates unconditionally to
`reload_wg_config`; no strategy selection or fallback exists, a failure of
the underlying set-peer is surfaced as failure, and no trace of
`restart_vpn` ever contains a container restart or a live-peer removal. -/
theorem restart_vpn_no_fallback (conf : Option (List CLine)) (env : WgEnv) :
    restart_vpn conf env = reload_wg_config conf env ∧
    (restart_vpn conf env).effects.all (fun e => !isDisruptive e) = true := by
  refine ⟨rfl, ?_⟩
  unfold restart_vpn reload_wg_config
  cases conf with
  | none => rfl
  | some lines =>
    dsimp only
    repeat' split <;> try rfl

/-- Claim C4.  If a reconciliation pass succeeds, then a second pass on the same
declared config, against the live table left behind by the first (the old
table plus any key the first pass set), succeeds and issues zero mutating
commands, whatever the set-peer oracle would answer. -/
theorem reload_idempotent (lines : List CLine) (env env' : WgEnv)
    (hok : (reload_wg_config (some lines) env).ok = true)
    (hlive : env'.live =
      issuedKeys (reload_wg_config (some lines) env).effects ++ env.live) :
    (reload_wg_config (some lines) env').ok = true ∧
    mutCmds (reload_wg_config (some lines) env').effects = [] := by
  rcases hsec : (peerSections lines).getLast? with _ | sec
  · simp [reload_wg_config, hsec, mutCmds]
  · rcases hpk : firstPublicKey sec with _ | pk
    · simp [reload_wg_config, hsec, hpk] at hok
    · by_cases hin : pk ∈ env.live
      · have h1 : env'.live = env.live := by
          simpa [reload_wg_config, hsec, hpk, hin, issuedKeys] using hlive
        have hin' : pk ∈ env'.live := h1 ▸ hin
        simp [reload_wg_config, hsec, hpk, hin', mutCmds]
      · rcases haip : firstAllowedIPs sec with _ | aip
        · simp [reload_wg_config, hsec, hpk, hin, haip] at hok
        · rcases hres : env.setRes with _ | _ | _
          · have h1 : env'.live = pk :: env.live := by
              simpa [reload_wg_config, hsec, hpk, hin, haip, hres,
                issuedKeys] using hlive
            have hin' : pk ∈ env'.live := by simp [h1]
            simp [reload_wg_config, hsec, hpk, hin', mutCmds]
          · have h1 : env'.live = pk :: env.live := by
              simpa [reload_wg_config, hsec, hpk, hin, haip, hres,
                issuedKeys] using hlive
            have hin' : pk ∈ env'.live := by simp [h1]
            simp [reload_wg_config, hsec, hpk, hin', mutCmds]
          · simp [reload_wg_config, hsec, hpk, hin, haip, hres] at hok

/-- Claim C4 witness: a first pass on `cfgC1` with nothing live adds `pkB`; the
second pass against the updated live table succeeds with zero mutating
commands. -/
theorem reload_idempotent_witness :
    (reload_wg_config (some cfgC1) envC1).ok = true ∧
    mutCmds (reload_wg_config (some cfgC1) envC1).effects = [] :=
  reload_idempotent cfgC1 envEmpty envC1 (by decide) (by decide)

/-- Claim C5.  Every mutating command a generic apply pass
(`restart_vpn`, equivalently `reload_wg_config`) ever issues is a
single-peer set-peer (add/update): no trace, for any declared config and
any live state, contains a live-peer removal or a container restart, even
when live peers are absent from the declared config. -/
theorem apply_never_removes (conf : Option (List CLine)) (env : WgEnv) :
    (mutCmds (restart_vpn conf env).effects).all isSetPeerCmd = true ∧
    (mutCmds (reload_wg_config conf env).effects).all isSetPeerCmd = true := by
  have h : (mutCmds (reload_wg_config conf env).effects).all isSetPeerCmd
      = true := by
    unfold reload_wg_config
    cases conf with
    | none => rfl
    | some lines =>
      dsimp only
      repeat' split <;> try rfl
  exact ⟨h, h⟩

/-- A list with no `[Peer]` header has no truncation point. -/
theorem truncAtLastPeer_eq_none (ls : List CLine)
    (h : ∀ l ∈ ls, l ≠ CLine.peerHeader) : truncAtLastPeer ls = none := by
  induction ls with
  | nil => rfl
  | cons l t ih =>
    have ht : truncAtLastPeer t = none :=
      ih (fun x hx => h x (List.mem_cons_of_mem _ hx))
    simp [truncAtLastPeer, ht, h l (List.mem_cons_self _ _)]

/-- Truncation at the last `[Peer]` header returns everything before it,
when no further `[Peer]` header follows. -/
theorem truncAtLastPeer_append (pre b1 : List CLine)
    (h : ∀ l ∈ b1, l ≠ CLine.peerHeader) :
    truncAtLastPeer (pre ++ CLine.peerHeader :: b1) = some pre := by
  induction pre with
  | nil => simp [truncAtLastPeer, truncAtLastPeer_eq_none b1 h]
  | cons l t ih => simp [truncAtLastPeer, ih]

/-- With the skip flag clear, the `delete_client` loop copies any line that
is not the sought `PublicKey` line. -/
theorem delStep_copy (key : String) (acc : List CLine) (f : Bool)
    (l : CLine) (h : l ≠ CLine.publicKey key) :
    delStep key ⟨acc, false, f⟩ l = ⟨acc ++ [l], false, f⟩ := by
  cases l <;> try rfl
  case publicKey k =>
    have hk : ¬(k = key) := fun hkk => h (by rw [hkk])
    simp [delStep, hk]

/-- With the skip flag set, the `delete_client` loop drops any line that is
neither a header nor `PublicKey`-shaped. -/
theorem delStep_drop (key : String) (acc : List CLine) (f : Bool)
    (l : CLine) (h : isSkippable l = true) :
    delStep key ⟨acc, true, f⟩ l = ⟨acc, true, f⟩ := by
  cases l <;> first | rfl | simp [isSkippable] at h

/-- Run of the `delete_client` loop over lines not containing the sought
`PublicKey` line, starting with the skip flag clear: all lines are copied
and the flags are unchanged. -/
theorem delRun_copy (key : String) (ls : List CLine) :
    ∀ (acc : List CLine) (f : Bool),
      (∀ l ∈ ls, l ≠ CLine.publicKey key) →
      ls.foldl (delStep key) ⟨acc, false, f⟩ = ⟨acc ++ ls, false, f⟩ := by
  induction ls with
  | nil => intro acc f _; simp
  | cons l t ih =>
    intro acc f h
    rw [List.foldl_cons,
        delStep_copy key acc f l (h l (List.mem_cons_self _ _)),
        ih (acc ++ [l]) f (fun x hx => h x (List.mem_cons_of_mem _ hx))]
    simp

/-- Run of the `delete_client` loop over skippable lines with the skip flag
set: nothing is copied. -/
theorem delRun_drop (key : String) (ls : List CLine) :
    ∀ (acc : List CLine) (f : Bool),
      (∀ l ∈ ls, isSkippable l = true) →
      ls.foldl (delStep key) ⟨acc, true, f⟩ = ⟨acc, true, f⟩ := by
  induction ls with
  | nil => intro acc f _; rfl
  | cons l t ih =>
    intro acc f h
    rw [List.foldl_cons, delStep_drop key acc f l (h l (List.mem_cons_self _ _))]
    exact ih acc f (fun x hx => h x (List.mem_cons_of_mem _ hx))

/-- Core of C6: on a document consisting of a region `b` without the sought
key, the `[Peer]` section carrying `PublicKey = k` (header, body `b1`
before the key line, skippable body `b2` after it), and a remainder `a`
that is empty or starts at the next section header and does not carry the
key, the rewrite removes exactly that section and reports it found. -/
theorem delRewrite_removes (k : String) (b b1 b2 a : List CLine)
    (hb : ∀ l ∈ b, l ≠ CLine.publicKey k)
    (hb1 : ∀ l ∈ b1, l ≠ CLine.peerHeader ∧ l ≠ CLine.publicKey k)
    (hb2 : ∀ l ∈ b2, isSkippable l = true)
    (ha : a = [] ∨ ∃ h t, (h = CLine.peerHeader ∨ h = CLine.interfaceHeader) ∧
      a = h :: t ∧ ∀ l ∈ t, l ≠ CLine.publicKey k) :
    delRewrite k
      (b ++ (CLine.peerHeader :: (b1 ++ (CLine.publicKey k :: (b2 ++ a)))))
      = (b ++ a, true) := by
  have e1 : List.foldl (delStep k) ⟨[], false, false⟩ b
      = ⟨b, false, false⟩ := by
    simpa using delRun_copy k b [] false hb
  have e2 : List.foldl (delStep k) ⟨b ++ [CLine.peerHeader], false, false⟩ b1
      = ⟨(b ++ [CLine.peerHeader]) ++ b1, false, false⟩ :=
    delRun_copy k b1 _ false (fun l hl => (hb1 l hl).2)
  have e3 : truncAtLastPeer (b ++ CLine.peerHeader :: b1) = some b :=
    truncAtLastPeer_append b b1 (fun l hl => (hb1 l hl).1)
  have e5 : delStep k ⟨(b ++ [CLine.peerHeader]) ++ b1, false, false⟩
      (CLine.publicKey k) = ⟨b, true, true⟩ := by
    simp [delStep, e3]
  have e4 : List.foldl (delStep k) ⟨b, true, true⟩ b2 = ⟨b, true, true⟩ :=
    delRun_drop k b2 b true hb2
  have emain : List.foldl (delStep k) ⟨[], false, false⟩
      (b ++ (CLine.peerHeader :: (b1 ++ (CLine.publicKey k :: (b2 ++ a)))))
      = List.foldl (delStep k) ⟨b, true, true⟩ a := calc
    List.foldl (delStep k) ⟨[], false, false⟩
        (b ++ (CLine.peerHeader :: (b1 ++ (CLine.publicKey k :: (b2 ++ a)))))
        = List.foldl (delStep k)
            (List.foldl (delStep k) ⟨[], false, false⟩ b)
            (CLine.peerHeader :: (b1 ++ (CLine.publicKey k :: (b2 ++ a)))) :=
      List.foldl_append (delStep k) ⟨[], false, false⟩ b _
    _ = List.foldl (delStep k) ⟨b, false, false⟩
          (CLine.peerHeader :: (b1 ++ (CLine.publicKey k :: (b2 ++ a)))) := by
      rw [e1]
    _ = List.foldl (delStep k) ⟨b ++ [CLine.peerHeader], false, false⟩
          (b1 ++ (CLine.publicKey k :: (b2 ++ a))) := by
      rw [List.foldl_cons]
      rfl
    _ = List.foldl (delStep k)
          (List.foldl (delStep k) ⟨b ++ [CLine.peerHeader], false, false⟩ b1)
          (CLine.publicKey k :: (b2 ++ a)) :=
      List.foldl_append (delStep k) ⟨b ++ [CLine.peerHeader], false, false⟩
        b1 _
    _ = List.foldl (delStep k)
          ⟨(b ++ [CLine.peerHeader]) ++ b1, false, false⟩
          (CLine.publicKey k :: (b2 ++ a)) := by
      rw [e2]
    _ = List.foldl (delStep k) ⟨b, true, true⟩ (b2 ++ a) := by
      rw [List.foldl_cons, e5]
    _ = List.foldl (delStep k)
          (List.foldl (delStep k) ⟨b, true, true⟩ b2) a :=
      List.foldl_append (delStep k) ⟨b, true, true⟩ b2 a
    _ = List.foldl (delStep k) ⟨b, true, true⟩ a := by
      rw [e4]
  unfold delRewrite
  rw [emain]
  rcases ha with rfl | ⟨h, t, hh, rfl, ht⟩
  · simp
  · have e6 : delStep k ⟨b, true, true⟩ h = ⟨b ++ [h], false, true⟩ := by
      rcases hh with rfl | rfl <;> rfl
    rw [List.foldl_cons, e6, delRun_copy k t (b ++ [h]) true ht]
    simp

/-- A filter removing all entries with a given name leaves nothing for
`find?` on that name. -/
theorem find?_remove_none (cs : List (String × List CLine)) (name : String) :
    (cs.filter (fun p => !(p.1 == name))).find? (fun p => p.1 == name)
      = none := by
  rw [List.find?_eq_none]
  intro x hx
  have h2 := (List.mem_filter.mp hx).2
  simp only [Bool.not_eq_true'] at h2
  simp [h2]

/-- After removing the client's file, looking it up yields nothing,
whatever server config the new filesystem carries. -/
theorem lookupClient_mk_none (sc : Option (List CLine)) (fs : FS)
    (name : String) :
    FS.lookupClient ⟨sc, (fs.removeClient name).clients⟩ name = none := by
  simp [FS.lookupClient, FS.removeClient, find?_remove_none]

/-- Claim C6.  For a client whose file exists and resolves (via the interface
private key and `wg pubkey`) to public key `k`, and a server config `sl`:
(a) when `sl` decomposes into a region `b` (no `PublicKey = k` line), the
`[Peer]` section carrying `PublicKey = k`, and a remainder `a` that is
empty or starts at the next section header (no further `PublicKey = k`),
`delete_client` succeeds, rewrites the server config to exactly `b ++ a`
(that section removed — header plus its lines up to, not including, the
next header — with all other text byte-unchanged) and removes the client's
file; (b) when no line of `sl` is `PublicKey = k`, the rewritten server
config is byte-identical to `sl`, the client's file is still removed, and
the operation reports success. -/
theorem delete_client_frame (name k priv : String) (ext : Ext) (fs : FS)
    (cl sl : List CLine)
    (hc : fs.lookupClient name = some cl)
    (hpriv : firstPrivAfterInterface cl = some priv)
    (hwg : ext.wgPub priv = some k)
    (hs : fs.serverConf = some sl) :
    (∀ b b1 b2 a,
      sl = b ++ (CLine.peerHeader :: (b1 ++ (CLine.publicKey k :: (b2 ++ a)))) →
      (∀ l ∈ b, l ≠ CLine.publicKey k) →
      (∀ l ∈ b1, l ≠ CLine.peerHeader ∧ l ≠ CLine.publicKey k) →
      (∀ l ∈ b2, isSkippable l = true) →
      (a = [] ∨ ∃ h t, (h = CLine.peerHeader ∨ h = CLine.interfaceHeader) ∧
        a = h :: t ∧ ∀ l ∈ t, l ≠ CLine.publicKey k) →
      ((delete_client name ext fs).ok = true ∧
       (delete_client name ext fs).fs.serverConf = some (b ++ a) ∧
       (delete_client name ext fs).fs.lookupClient name = none ∧
       ∀ base,
         renderConf base (((delete_client name ext fs).fs.serverConf).getD [])
           = renderConf base (b ++ a))) ∧
    ((∀ l ∈ sl, l ≠ CLine.publicKey k) →
      ((delete_client name ext fs).ok = true ∧
       (delete_client name ext fs).fs.serverConf = some sl ∧
       (delete_client name ext fs).fs.lookupClient name = none)) := by
  constructor
  · intro b b1 b2 a hshape hb hb1 hb2 ha
    have hrw : delRewrite k sl = (b ++ a, true) := by
      rw [hshape]
      exact delRewrite_removes k b b1 b2 a hb hb1 hb2 ha
    refine ⟨?_, ?_, ?_, ?_⟩ <;>
      simp [delete_client, hc, hpriv, hwg, deleteWithKey, hs, hrw,
        lookupClient_mk_none]
  · intro hnk
    have hrw : delRewrite k sl = (sl, false) := by
      unfold delRewrite
      rw [delRun_copy k sl [] false hnk]
      simp
    refine ⟨?_, ?_, ?_⟩ <;>
      simp [delete_client, hc, hpriv, hwg, deleteWithKey, hs, hrw,
        lookupClient_mk_none]

/-- Claim C6 witness: deleting `alice` from `slW` removes exactly her `[Peer]`
section, leaving the `[Interface]` region and the `pkB` section unchanged;
deleting `bob`, whose key is absent from `slW2`, leaves the server config
byte-identical, removes `bob.conf` and still succeeds. -/
theorem delete_client_frame_witness :
    ((delete_client "alice" extW fsW).ok = true ∧
     (delete_client "alice" extW fsW).fs.serverConf =
       some ([CLine.interfaceHeader, CLine.privateKeyLine srvPriv,
              CLine.blank] ++
             [CLine.peerHeader, CLine.publicKey pkB, CLine.allowedIPs 3]) ∧
     (delete_client "alice" extW fsW).fs.lookupClient "alice" = none ∧
     renderConf "10.10.1"
         (((delete_client "alice" extW fsW).fs.serverConf).getD [])
       = renderConf "10.10.1"
           ([CLine.interfaceHeader, CLine.privateKeyLine srvPriv,
             CLine.blank] ++
            [CLine.peerHeader, CLine.publicKey pkB, CLine.allowedIPs 3])) ∧
    ((delete_client "bob" extW fsW2).ok = true ∧
     (delete_client "bob" extW fsW2).fs.serverConf = some slW2 ∧
     (delete_client "bob" extW fsW2).fs.lookupClient "bob" = none) := by
  have H := delete_client_frame "alice" pkA privA extW fsW clW slW
    (by decide) (by decide) (by decide) (by decide)
  have H2 := delete_client_frame "bob" pkA privA extW fsW2 clW slW2
    (by decide) (by decide) (by decide) (by decide)
  have HA := H.1
    [CLine.interfaceHeader, CLine.privateKeyLine srvPriv, CLine.blank]
    [] [CLine.presharedKey pskA, CLine.allowedIPs 2, CLine.blank]
    [CLine.peerHeader, CLine.publicKey pkB, CLine.allowedIPs 3]
    (by decide) (by decide) (by decide) (by decide)
    (Or.inr ⟨CLine.peerHeader, [CLine.publicKey pkB, CLine.allowedIPs 3],
      Or.inl rfl, rfl, by decide⟩)
  exact ⟨⟨HA.1, HA.2.1, HA.2.2.1, HA.2.2.2 "10.10.1"⟩, H2.2 (by decide)⟩

/-- Claim C7.  On the empty-peer server config with base prefix `10.10.1` and
start host 2: creating `alice` succeeds, appends the declared peer section
with host octet 2 (rendering as `AllowedIPs = 10.10.1.2/32`) and creates
`alice.conf`; deleting `alice` then succeeds, removes that peer section
from the server config and deletes `alice.conf`; a third delete of `alice`
fails with the not-found report. -/
theorem create_delete_scenario :
    (create_client "alice" extW fs0).ok = true ∧
    (create_client "alice" extW fs0).fs.serverConf =
      some (sl0 ++ [CLine.blank, CLine.peerHeader, CLine.publicKey pkA,
        CLine.presharedKey pskA, CLine.allowedIPs 2]) ∧
    CLine.render "10.10.1" (CLine.allowedIPs 2) = "AllowedIPs = 10.10.1.2/32" ∧
    (create_client "alice" extW fs0).fs.lookupClient "alice" =
      some (clientBasicConf extW privA 2 srvPub pskA) ∧
    (delete_client "alice" extW (create_client "alice" extW fs0).fs).ok
      = true ∧
    (delete_client "alice" extW
        (create_client "alice" extW fs0).fs).fs.serverConf
      = some (sl0 ++ [CLine.blank]) ∧
    (delete_client "alice" extW
        (create_client "alice" extW fs0).fs).fs.lookupClient "alice"
      = none ∧
    (delete_client "alice" extW
        (delete_client "alice" extW
          (create_client "alice" extW fs0).fs).fs).ok = false ∧
    (delete_client "alice" extW
        (delete_client "alice" extW
          (create_client "alice" extW fs0).fs).fs).msg = MsgTag.notFound := by
  decide

/-- Claim C8.  Creating a client whose config file already exists fails before
any read or write: the result reports the duplicate, the filesystem (server
config and every client file) is returned unchanged, and the effect trace
is empty. -/
theorem create_client_duplicate (name : String) (ext : Ext) (fs : FS)
    (cl : List CLine) (h : fs.lookupClient name = some cl) :
    create_client name ext fs = ⟨false, fs, [], .duplicateClient⟩ := by
  unfold create_client
  rw [h]

/-- Claim C8 witness: creating `alice`, which exists in `fsW`, changes nothing. -/
theorem create_client_duplicate_witness :
    create_client "alice" extW fsW =
      ⟨false, fsW, [], MsgTag.duplicateClient⟩ :=
  create_client_duplicate "alice" extW fsW clW (by decide)

/-- Claim C9.  Enriched rendering never writes: no trace of `get_client_config`
contains a file write or delete.  When the stored client text (after
endpoint substitution) already carries a `Jc =` line, the returned text is
exactly the endpoint-substituted stored text — the obfuscation block is not
injected a second time — so a text carrying the block once is returned
carrying it exactly once. -/
theorem get_client_config_enriched (name : String) (ext : Ext) (fs : FS) :
    ((get_client_config name ext fs).2.all (fun e => !isWriteEffect e)
      = true) ∧
    (∀ cl, fs.lookupClient name = some cl →
      (cl.map (endpointRewrite ext.extIp)).any isJcLine = true →
      (get_client_config name ext fs).1 =
        some (cl.map (endpointRewrite ext.extIp))) ∧
    (∀ cl, fs.lookupClient name = some cl →
      countJc (cl.map (endpointRewrite ext.extIp)) = 1 →
      countJc (((get_client_config name ext fs).1).getD []) = 1) := by
  have hpart2 : ∀ cl, fs.lookupClient name = some cl →
      (cl.map (endpointRewrite ext.extIp)).any isJcLine = true →
      (get_client_config name ext fs).1 =
        some (cl.map (endpointRewrite ext.extIp)) := by
    intro cl hc hany
    simp [get_client_config, hc, hany]
  refine ⟨?_, hpart2, ?_⟩
  · rcases hc : fs.lookupClient name with _ | cl
    · simp [get_client_config, hc]
    · have heff :
          ((BotEffect.fsRead (FileId.clientConf name) ::
            (cl.filter isV6Endpoint).map
              (fun _ => BotEffect.query ExtQuery.curlIp)).all
            (fun e => !isWriteEffect e)) = true := by
        rw [List.all_cons]
        refine (Bool.and_eq_true _ _).mpr ⟨rfl, ?_⟩
        rw [List.all_eq_true]
        intro e he
        rcases List.mem_map.mp he with ⟨x, hx, rfl⟩
        rfl
      simp only [get_client_config, hc]
      split
      · exact heff
      · split <;> exact heff
  · intro cl hc h1
    have hpos : 0 < countJc (cl.map (endpointRewrite ext.extIp)) := by
      rw [h1]
      exact Nat.one_pos
    have hany : (cl.map (endpointRewrite ext.extIp)).any isJcLine = true := by
      rw [List.any_eq_true]
      obtain ⟨x, hx, hpx⟩ := List.countP_pos_iff.mp hpos
      exact ⟨x, hx, hpx⟩
    rw [hpart2 cl hc hany]
    simpa using h1

/-- Claim C9 witness: for `carol`, whose stored text carries `Jc` once, the
returned text carries it exactly once and the trace has no write. -/
theorem get_client_config_enriched_witness :
    ((get_client_config "carol" extW fsJc).2.all (fun e => !isWriteEffect e)
      = true) ∧
    (get_client_config "carol" extW fsJc).1 =
      some (clJc.map (endpointRewrite extW.extIp)) ∧
    countJc (((get_client_config "carol" extW fsJc).1).getD []) = 1 :=
  ⟨(get_client_config_enriched "carol" extW fsJc).1,
   (get_client_config_enriched "carol" extW fsJc).2.1 clJc (by decide)
     (by decide),
   (get_client_config_enriched "carol" extW fsJc).2.2 clJc (by decide)
     (by decide)⟩

/-- Claim C10.  Every chat entry point invoked by a user outside the admin
allow-list leaves the filesystem unchanged and produces only chat traffic
(no config read or write, no external query or command), including a
refusal reply (or, for the button callback, a refusal message edit). -/
theorem nonadmin_handlers_inert (admins : List Int) (ext : Ext) (fs : FS)
    (c : HCall) (h : is_admin admins c.uid = false) :
    (handle admins ext fs c).1 = fs ∧
    (handle admins ext fs c).2.all isPureChatEffect = true ∧
    (BotEffect.reply MsgTag.refusal ∈ (handle admins ext fs c).2 ∨
     BotEffect.editMessage MsgTag.refusal ∈ (handle admins ext fs c).2) := by
  cases c <;> simp_all [handle, HCall.uid, isPureChatEffect]

/-- Claim C10 witness: user 7 is not in the allow-list `[42]`; the add-client
command only refuses. -/
theorem nonadmin_handlers_inert_witness :
    (handle [42] extW fsW (HCall.addClient 7 ["mallory"])).1 = fsW ∧
    (handle [42] extW fsW (HCall.addClient 7 ["mallory"])).2.all
      isPureChatEffect = true ∧
    (BotEffect.reply MsgTag.refusal ∈
      (handle [42] extW fsW (HCall.addClient 7 ["mallory"])).2 ∨
     BotEffect.editMessage MsgTag.refusal ∈
      (handle [42] extW fsW (HCall.addClient 7 ["mallory"])).2) :=
  nonadmin_handlers_inert [42] extW fsW (HCall.addClient 7 ["mallory"])
    (by decide)

end TgAwg
